import Mathlib

/-!
Verification of the Pistology-WAIS quantitative analysis library and agent
orchestration layer against its natural-language specification.

The Python source is shallowly embedded:
* pure numeric routines (`_calculate_eoq`, `_calculate_safety_stock`,
  `_abc_classification`, `_pareto_analysis`, `_dpmo_to_sigma`,
  `_sigma_to_dpmo`) become functions over `ℝ` / `ℚ`;
* Python `round(x, 2)` becomes `round2` / `round2q` (round to nearest,
  two decimals; the half-even vs half-up tie policy is irrelevant at the
  inputs considered here);
* `BaseAgent.process` becomes explicit state passing, with the two OpenAI
  chat-completion calls supplied as oracle values of type
  `Except String Completion` (an `Except.error` models the API call
  raising, `content = none` models a null message content);
* wall-clock timestamps are elided (they never influence control flow).
-/

/-- Python `round(x, 2)` over the reals: round to two decimal places. -/
noncomputable def round2 (x : ℝ) : ℝ := (round (100 * x) : ℤ) / 100

/-- Python `round(x, 2)` over the rationals (used where the source code is
exact decimal arithmetic, so that witnesses can be checked by `decide`). -/
def round2q (x : ℚ) : ℚ := (round (100 * x) : ℤ) / 100

/-- Result schema of `InventoryAgent._calculate_eoq` (the dict literal at
inventory_agent.py:261-267). -/
structure EOQResult where
  eoq : ℝ
  orders_per_year : ℝ
  days_between_orders : ℝ
  total_annual_cost : ℝ
  average_inventory : ℝ

/-- Embedding of `InventoryAgent._calculate_eoq` (inventory_agent.py:249-269).
`math.sqrt((2*D*S)/H)` raises `ZeroDivisionError` when `H = 0` and a domain
error when the quotient is negative; the surrounding `try/except` turns either
into an error dict, embedded as `Except.error`. -/
noncomputable def calculate_eoq (annual_demand order_cost holding_cost : ℝ) : Except String EOQResult :=
  if holding_cost = 0 then .error "float division by zero"
  else if (2 * annual_demand * order_cost) / holding_cost < 0 then .error "math domain error"
  else
    let eoq := Real.sqrt ((2 * annual_demand * order_cost) / holding_cost)
    let orders_per_year := annual_demand / eoq
    let time_between_orders := 365 / orders_per_year
    let total_cost := (annual_demand / eoq) * order_cost + (eoq / 2) * holding_cost
    .ok { eoq := round2 eoq
          orders_per_year := round2 orders_per_year
          days_between_orders := round2 time_between_orders
          total_annual_cost := round2 total_cost
          average_inventory := round2 (eoq / 2) }

/-- The Z-score lookup table of `InventoryAgent._calculate_safety_stock`
(inventory_agent.py:291-300): `z_scores.get(service_level, 1.65)`.  The dict
keys are exact decimal float literals, embedded as rationals. -/
def zScores (service_level : ℚ) : ℚ :=
  if service_level = 0.90 then 1.28
  else if service_level = 0.95 then 1.65
  else if service_level = 0.97 then 1.88
  else if service_level = 0.99 then 2.33
  else if service_level = 0.999 then 3.09
  else 1.65

/-- Result schema of `InventoryAgent._calculate_safety_stock`
(inventory_agent.py:306-312; the free-text recommendation field is elided). -/
structure SafetyStockResult where
  safety_stock : ℝ
  service_level : ℚ
  z_score : ℚ
  expected_stockout_probability : ℚ

/-- Embedding of `InventoryAgent._calculate_safety_stock` (inventory_agent.py:286-314):
`z_score * demand_std_dev * math.sqrt(lead_time_days)` inside a `try/except`.
The only raising operation in the body is `math.sqrt(lead_time_days)`, which
raises `ValueError("math domain error")` for negative lead time; the except
block turns it into an error dict, embedded as `Except.error`.  Note the
`daily_demand` argument is accepted but unused by the formula, exactly as in
the source. -/
noncomputable def calculate_safety_stock (daily_demand demand_std_dev lead_time_days : ℝ)
    (service_level : ℚ) : Except String SafetyStockResult :=
  if lead_time_days < 0 then .error "math domain error"
  else
    let z : ℚ := zScores service_level
    .ok { safety_stock := round2 ((z : ℝ) * demand_std_dev * Real.sqrt lead_time_days)
          service_level := service_level
          z_score := z
          expected_stockout_probability := (round ((1 - service_level) * 10000) : ℤ) / 10000 }

/-- One row of the `results` list built by
`InventoryAgent._abc_classification` (inventory_agent.py:425-433); the
free-text priority/control fields are determined by `category` and elided. -/
structure AbcEntry where
  sku : String
  annual_value : ℚ
  percentage_of_total : ℚ
  cumulative_percentage : ℚ
  category : String
deriving Repr, DecidableEq

/-- Python `sorted(items, key=lambda x: x["annual_value"], reverse=True)`:
a stable descending sort by value.  Mathlib's insertion sort with the
relation `b.2 ≤ a.2` places earlier elements first on ties, matching the
stability of Python's `sorted`. -/
def valGe (a b : String × ℚ) : Prop := b.2 ≤ a.2

instance : DecidableRel valGe := fun a b => inferInstanceAs (Decidable (b.2 ≤ a.2))

instance : IsTotal (String × ℚ) valGe := ⟨fun a b => le_total b.2 a.2⟩

instance : IsTrans (String × ℚ) valGe := ⟨fun _ _ _ h1 h2 => le_trans h2 h1⟩

def sortDescq (items : List (String × ℚ)) : List (String × ℚ) :=
  items.insertionSort valGe

/-- The classification loop of `InventoryAgent._abc_classification`
(inventory_agent.py:403-433): running cumulative percentage `c`, category by
the un-rounded cumulative thresholds 80 / 95, rounded values in the output. -/
def abcGo (total : ℚ) (c : ℚ) : List (String × ℚ) → List AbcEntry
  | [] => []
  | (sku, v) :: rest =>
    let percent := v / total * 100
    let cumulative := c + percent
    { sku := sku
      annual_value := round2q v
      percentage_of_total := round2q percent
      cumulative_percentage := round2q cumulative
      category := if cumulative ≤ 80 then "A" else if cumulative ≤ 95 then "B" else "C" }
      :: abcGo total cumulative rest

/-- The un-rounded running cumulative percentages produced by the loop of
`_abc_classification` / `_pareto_analysis` (proof support). -/
def cumList (total : ℚ) (c : ℚ) : List (String × ℚ) → List ℚ
  | [] => []
  | (_, v) :: rest => (c + v / total * 100) :: cumList total (c + v / total * 100) rest

/-- Embedding of `InventoryAgent._abc_classification` (inventory_agent.py:386-470).
Empty input yields the error dict `{"error": "No items provided"}`; the
per-category summary is derived from the returned classification list and
elided here. -/
def abcClassification (items : List (String × ℚ)) : Except String (List AbcEntry) :=
  if items = [] then .error "No items provided"
  else
    let sorted_items := sortDescq items
    let total_value := (sorted_items.map (·.2)).sum
    .ok (abcGo total_value 0 sorted_items)

/-- One row of the `results` list built by `QualityAgent._pareto_analysis`
(quality_agent.py:229-240); `_pareto_analysis_inventory`
(inventory_agent.py:490-502) builds the same row under different key names. -/
structure ParetoEntry where
  name : String
  value : ℚ
  percentage : ℚ
  cumulative_percentage : ℚ
  is_vital_few : Bool
deriving Repr, DecidableEq

/-- The accumulation loop of `QualityAgent._pareto_analysis`
(quality_agent.py:229-240): `is_vital_few` is `cumulative <= 80` on the
un-rounded cumulative percentage. -/
def paretoGo (total : ℚ) (c : ℚ) : List (String × ℚ) → List ParetoEntry
  | [] => []
  | (name, v) :: rest =>
    let percent := v / total * 100
    let cumulative := c + percent
    { name := name
      value := v
      percentage := round2q percent
      cumulative_percentage := round2q cumulative
      is_vital_few := decide (cumulative ≤ 80) }
      :: paretoGo total cumulative rest

/-- Result of `QualityAgent._pareto_analysis` (quality_agent.py:211-260):
the full analysis list plus its split into `vital_few` / `trivial_many`. -/
structure ParetoResult where
  analysis : List ParetoEntry
  vital_few : List ParetoEntry
  trivial_many : List ParetoEntry
deriving Repr, DecidableEq

/-- Embedding of `QualityAgent._pareto_analysis` (quality_agent.py:211-260);
`InventoryAgent._pareto_analysis_inventory` (inventory_agent.py:472-527) is
the same algorithm modulo field names. -/
def paretoAnalysis (items : List (String × ℚ)) : Except String ParetoResult :=
  if items = [] then .error "No items provided"
  else
    let sorted_items := sortDescq items
    let total := (sorted_items.map (·.2)).sum
    let results := paretoGo total 0 sorted_items
    .ok { analysis := results
          vital_few := results.filter (·.is_vital_few)
          trivial_many := results.filter (fun r => !r.is_vital_few) }

/-- Embedding of `QualityAgent._dpmo_to_sigma` (quality_agent.py:517-532), parametrised by
the inverse normal CDF `ppf` (`scipy.stats.norm.ppf`): early returns for
`dpmo >= 1000000` and `dpmo <= 0`, otherwise
`max(0, min(6, ppf(1 - dpmo/1e6) + 1.5))`. -/
noncomputable def dpmoToSigma (ppf : ℝ → ℝ) (dpmo : ℝ) : ℝ :=
  if 1000000 ≤ dpmo then 0
  else if dpmo ≤ 0 then 6
  else
    let defect_rate := dpmo / 1000000
    max 0 (min 6 (ppf (1 - defect_rate) + 1.5))

/-- Embedding of `QualityAgent._sigma_to_dpmo` (quality_agent.py:534-541), parametrised by
the normal CDF `cdf` (`scipy.stats.norm.cdf`):
`(1 - cdf(sigma - 1.5)) * 1000000`. -/
noncomputable def sigmaToDpmo (cdf : ℝ → ℝ) (sigma_level : ℝ) : ℝ :=
  (1 - cdf (sigma_level - 1.5)) * 1000000

/-- A concrete strictly increasing bijection `ℝ → (0, 1)` standing in for the
normal CDF in witnesses: `x ↦ 1/2 + x / (2 (1 + |x|))`. -/
noncomputable def cdfW (x : ℝ) : ℝ := 1 / 2 + x / (2 * (1 + |x|))

/-- The exact inverse of `cdfW` on `(0, 1)`:
`y ↦ (2 y - 1) / (1 - |2 y - 1|)`. -/
noncomputable def ppfW (y : ℝ) : ℝ := (2 * y - 1) / (1 - |2 * y - 1|)

/-- Values stored in an `AgentResponse.metadata` dict. -/
inductive MetaVal where
  | b (v : Bool)
  | n (v : Nat)
  | s (v : String)
deriving Repr, DecidableEq

deriving instance DecidableEq for Except

/-- One tool call returned by the chat-completion API
(base_agent.py:136-138): the function name together with the outcome of
`json.loads(tool_call.function.arguments)` (an `Except.error` models the
JSON parse raising). -/
structure ToolCall where
  name : String
  args : Except String String
deriving Repr, DecidableEq

/-- One chat-completion result (base_agent.py:121-131): the message content
(`none` models a null `message.content`), its tool calls, and
`usage.total_tokens`. -/
structure Completion where
  content : Option String
  toolCalls : List ToolCall
  usage : Nat
deriving Repr, DecidableEq

/-- One entry of `AgentResponse.function_calls` (base_agent.py:142-146). -/
structure FnCall where
  function : String
  arguments : String
  result : String
deriving Repr, DecidableEq

/-- Embedding of `AgentResponse` (base_agent.py:34-41); the timestamp field is elided. -/
structure AgentResponse where
  content : String
  agent_name : String
  function_calls : List FnCall
  metadata : List (String × MetaVal)
deriving Repr, DecidableEq

/-- The mutable fields of `BaseAgent.state` and
`BaseAgent.conversation_history` touched by `process`
(base_agent.py:69-78): `last_activity` is an opaque timestamp option and each
history entry is `(user, assistant)` with the assistant content possibly
`None` (base_agent.py:174-178). -/
structure AgentState where
  queries_processed : Nat
  total_tokens_used : Nat
  last_activity : Option String
  conversation_history : List (String × Option String)
deriving Repr, DecidableEq

/-- The error branch of `BaseAgent.process` (base_agent.py:190-196):
`AgentResponse(content=f"Error: {e}", agent_name=..., metadata={"error": True})`
with `function_calls` left at its empty default. -/
def errorResponse (agent_name msg : String) : AgentResponse :=
  { content := "Error: " ++ msg
    agent_name := agent_name
    function_calls := []
    metadata := [("error", .b true)] }

/-- Sequential `json.loads` over the tool-call arguments
(base_agent.py:136-153): the first parse failure raises. -/
def parseArgs : List ToolCall → Except String (List (String × String))
  | [] => .ok []
  | tc :: rest =>
    match tc.args with
    | .error e => .error e
    | .ok a => (parseArgs rest).map (fun l => (tc.name, a) :: l)

/-- Embedding of `BaseAgent.process` (base_agent.py:102-196) as explicit state passing.
The two `chat.completions.create` calls are the oracle inputs `call1` and
`call2`; `exec` is the subclass `_execute_function` (total in every subclass:
each wraps its body in `try/except` returning an error dict).  Mirrors the
source order: in the tool-call branch the state updates (tokens, counter,
activity, history) happen before the final `AgentResponse` construction,
which raises a pydantic validation error when the final message content is
`None` (line 163 has no `or ""`, unlike line 166); the success metadata
reports the FIRST response's token usage (line 185) while the state counter
added the final response's (line 164). -/
def process (agent_name model : String) (st : AgentState) (input_data : String)
    (call1 call2 : Except String Completion)
    (exec : String → String → String) : AgentState × AgentResponse :=
  match call1 with
  | .error e => (st, errorResponse agent_name e)
  | .ok r1 =>
    if r1.toolCalls = [] then
      let content := r1.content.getD ""
      let st' : AgentState :=
        { queries_processed := st.queries_processed + 1
          total_tokens_used := st.total_tokens_used + r1.usage
          last_activity := some "now"
          conversation_history := st.conversation_history ++ [(input_data, some content)] }
      (st', { content := content
              agent_name := agent_name
              function_calls := []
              metadata := [("tokens_used", .n r1.usage), ("model", .s model)] })
    else
      match parseArgs r1.toolCalls with
      | .error e => (st, errorResponse agent_name e)
      | .ok parsed =>
        let function_calls := parsed.map (fun p => FnCall.mk p.1 p.2 (exec p.1 p.2))
        match call2 with
        | .error e => (st, errorResponse agent_name e)
        | .ok r2 =>
          let st' : AgentState :=
            { queries_processed := st.queries_processed + 1
              total_tokens_used := st.total_tokens_used + r2.usage
              last_activity := some "now"
              conversation_history := st.conversation_history ++ [(input_data, r2.content)] }
          match r2.content with
          | some content =>
            (st', { content := content
                    agent_name := agent_name
                    function_calls := function_calls
                    metadata := [("tokens_used", .n r1.usage), ("model", .s model)] })
          | none =>
            (st', errorResponse agent_name "1 validation error for AgentResponse content")

/-- Whether a given run of `process` hits an internal failure: the first API
call raising, a tool-argument JSON parse raising, the second API call
raising, or the final content being `None` (pydantic validation). -/
def runFails (call1 call2 : Except String Completion) : Bool :=
  match call1 with
  | .error _ => true
  | .ok r1 =>
    if r1.toolCalls = [] then false
    else
      match parseArgs r1.toolCalls with
      | .error _ => true
      | .ok _ =>
        match call2 with
        | .error _ => true
        | .ok r2 => r2.content = none

/-- Python `str.lower()` over the character list (an executable embedding of
`String.toLower`). -/
def pyLower (t : String) : String := String.mk (t.data.map Char.toLower)

/-- Python `str.strip()`: drop leading and trailing whitespace. -/
def pyStrip (t : String) : String :=
  String.mk (((t.data.dropWhile Char.isWhitespace).reverse.dropWhile Char.isWhitespace).reverse)

/-- Embedding of `SupervisorAgent.route_query` (supervisor_agent.py:96-120): the Gemini
model's reply is the oracle `reply` (`Except.error` models the API raising);
`response.text.strip().lower()` is accepted if it is one of the three agent
names, otherwise — and on any exception — the result is `"inventory"`. -/
def routeQuery (query : String) (reply : Except String String) : String :=
  match reply with
  | .error _ => "inventory"
  | .ok text =>
    let agent_type := pyLower (pyStrip text)
    if agent_type = "inventory" ∨ agent_type = "operations" ∨ agent_type = "math"
    then agent_type
    else "inventory"

/-- Agent roles (agent_orchestrator.py:17-21, plus the supervisor). -/
inductive AgentRole where
  | inventory
  | operations
  | supervisor
  | math
deriving Repr, DecidableEq

/-- Modelled from the spec: the hop loop of `processWithHandoff`
(spec 4.4), which is absent from src/ — only the single-step
`BaseAgent.handoff_to` record builder (base_agent.py:302-319) exists there.
`decide` abstracts the per-hop choice (the spec's rule: after the first hop a
Supervisor may redirect once via the RoutingEngine, any other hop terminates);
the fuel argument is the spec's hard bound against runaway chains. -/
def handoffLoop (step : List AgentRole → Option AgentRole) :
    Nat → List AgentRole → List AgentRole
  | 0, chain => chain
  | fuel + 1, chain =>
    match step chain with
    | none => chain
    | some next => handoffLoop step fuel (chain ++ [next])

/-- Modelled from the spec: `processWithHandoff` (spec 4.4) starts the chain
at the explicit initial agent and is bounded to 5 visited agents in total. -/
def processWithHandoff (step : List AgentRole → Option AgentRole)
    (initial : AgentRole) : List AgentRole :=
  handoffLoop step 4 [initial]

/-! ## Theorems -/

theorem handoffLoop_length (step : List AgentRole → Option AgentRole) :
    ∀ (fuel : Nat) (chain : List AgentRole),
      (handoffLoop step fuel chain).length ≤ chain.length + fuel
  | 0, chain => by simp [handoffLoop]
  | fuel + 1, chain => by
    unfold handoffLoop
    cases step chain with
    | none => simp
    | some next =>
      calc (handoffLoop step fuel (chain ++ [next])).length
          ≤ (chain ++ [next]).length + fuel := handoffLoop_length step fuel (chain ++ [next])
        _ = chain.length + (fuel + 1) := by simp [List.length_append]; omega

/-- C8: for every hop-decision policy and every initial agent, the handoff
chain built by `processWithHandoff` (spec 4.4; the loop is modelled from the
spec, as only the single-step `handoff_to` exists in src/) visits at most 5
agents. -/
theorem C8_handoff_chain_le_five (step : List AgentRole → Option AgentRole)
    (initial : AgentRole) : (processWithHandoff step initial).length ≤ 5 := by
  have h := handoffLoop_length step 4 [initial]
  simpa [processWithHandoff] using h

/-- C4 counterexample: the claim asserts the formula "for every input", but
`_calculate_safety_stock` wraps its body in `try/except` and
`math.sqrt(lead_time_days)` raises `ValueError("math domain error")` for a
negative lead time, so the code returns an error dict — not
`Z·σ·sqrt(L)` — at `lead_time_days = -1`. -/
theorem C4_counterexample :
    calculate_safety_stock 1 2 (-1) 0.95 = .error "math domain error" := by
  unfold calculate_safety_stock
  rw [if_pos (by norm_num)]

/-- C4 (amended): for every input with non-negative `lead_time_days`,
`_calculate_safety_stock` returns
`Z(serviceLevel) * demandStdDev * sqrt(leadTimeDays)` (rounded to two
decimals in the output dict), where `Z` is exactly the lookup table
{0.90 → 1.28, 0.95 → 1.65, 0.97 → 1.88, 0.99 → 2.33, 0.999 → 3.09} and any
service level outside the table maps to `Z = 1.65`; a negative lead time
instead yields the error dict via the `try/except`. -/
theorem C4_safety_stock_formula (daily_demand demand_std_dev lead_time_days : ℝ)
    (service_level : ℚ) (hL : 0 ≤ lead_time_days) :
    (∃ r, calculate_safety_stock daily_demand demand_std_dev lead_time_days service_level
        = .ok r
      ∧ r.safety_stock
          = round2 ((zScores service_level : ℝ) * demand_std_dev * Real.sqrt lead_time_days)
      ∧ r.z_score = zScores service_level)
    ∧ zScores 0.90 = 1.28 ∧ zScores 0.95 = 1.65 ∧ zScores 0.97 = 1.88
    ∧ zScores 0.99 = 2.33 ∧ zScores 0.999 = 3.09
    ∧ (service_level ∉ ([0.90, 0.95, 0.97, 0.99, 0.999] : List ℚ) →
        zScores service_level = 1.65) := by
  have hok : calculate_safety_stock daily_demand demand_std_dev lead_time_days service_level
      = .ok { safety_stock := round2 ((zScores service_level : ℝ) * demand_std_dev
                * Real.sqrt lead_time_days)
              service_level := service_level
              z_score := zScores service_level
              expected_stockout_probability :=
                (round ((1 - service_level) * 10000) : ℤ) / 10000 } := by
    unfold calculate_safety_stock
    rw [if_neg (not_lt.mpr hL)]
  refine ⟨⟨_, hok, rfl, rfl⟩, by norm_num [zScores], by norm_num [zScores],
    by norm_num [zScores], by norm_num [zScores], by norm_num [zScores], ?_⟩
  intro h
  simp only [List.mem_cons, List.not_mem_nil, or_false, not_or] at h
  obtain ⟨h1, h2, h3, h4, h5⟩ := h
  simp [zScores, h1, h2, h3, h4, h5]

theorem C4_safety_stock_formula_witness :
    (∃ r, calculate_safety_stock 1 2 4 (1 / 2) = .ok r
      ∧ r.safety_stock = round2 ((zScores (1 / 2) : ℝ) * 2 * Real.sqrt 4)
      ∧ r.z_score = zScores (1 / 2))
    ∧ zScores (1 / 2) = 1.65 :=
  ⟨(C4_safety_stock_formula 1 2 4 (1 / 2) (by norm_num)).1,
    (C4_safety_stock_formula 1 2 4 (1 / 2) (by norm_num)).2.2.2.2.2.2 (by norm_num)⟩

theorem ppfW_cdfW (x : ℝ) : ppfW (cdfW x) = x := by
  unfold ppfW cdfW
  have h1 : (0 : ℝ) < 1 + |x| := by positivity
  have h2 : 2 * (1 / 2 + x / (2 * (1 + |x|))) - 1 = x / (1 + |x|) := by
    field_simp
    ring
  rw [h2, abs_div, abs_of_pos h1]
  have h4 : 1 - |x| / (1 + |x|) = 1 / (1 + |x|) := by
    field_simp
  rw [h4]
  field_simp

theorem cdfW_pos (x : ℝ) : 0 < cdfW x := by
  unfold cdfW
  have h1 : (0 : ℝ) < 1 + |x| := by positivity
  have h2 : 1 / 2 + x / (2 * (1 + |x|)) = (1 + |x| + x) / (2 * (1 + |x|)) := by
    field_simp
  rw [h2]
  apply div_pos
  · nlinarith [neg_abs_le x]
  · positivity

theorem cdfW_lt_one (x : ℝ) : cdfW x < 1 := by
  unfold cdfW
  have h1 : (0 : ℝ) < 1 + |x| := by positivity
  have h2 : x ≤ |x| := le_abs_self x
  have h3 : x / (2 * (1 + |x|)) < 1 / 2 := by
    rw [div_lt_iff₀ (by positivity : (0 : ℝ) < 2 * (1 + |x|))]
    nlinarith
  linarith

/-- C3: for any normal CDF / inverse-CDF pair (`scipy.stats.norm.cdf` /
`scipy.stats.norm.ppf`, idealised as exact inverses with range inside (0,1)),
converting a sigma level in [0, 6] to DPMO with `_sigma_to_dpmo` and back
with `_dpmo_to_sigma` returns it exactly (so in particular within any small
tolerance); both conversions carry the fixed 1.5σ shift and the result is
clamped to [0, 6]. -/
theorem C3_sigma_dpmo_roundtrip (cdf ppf : ℝ → ℝ)
    (hinv : ∀ x, ppf (cdf x) = x)
    (hpos : ∀ x, 0 < cdf x) (hlt : ∀ x, cdf x < 1)
    (s : ℝ) (hs0 : 0 ≤ s) (hs6 : s ≤ 6) :
    dpmoToSigma ppf (sigmaToDpmo cdf s) = s := by
  have hc0 := hpos (s - 1.5)
  have hc1 := hlt (s - 1.5)
  unfold sigmaToDpmo dpmoToSigma
  rw [if_neg (by nlinarith), if_neg (by nlinarith)]
  show max 0 (min 6 (ppf (1 - (1 - cdf (s - 1.5)) * 1000000 / 1000000) + 1.5)) = s
  rw [show 1 - (1 - cdf (s - 1.5)) * 1000000 / 1000000 = cdf (s - 1.5) by ring,
    hinv, show s - 1.5 + 1.5 = s by ring, min_eq_right hs6, max_eq_right hs0]

theorem C3_sigma_dpmo_roundtrip_witness :
    dpmoToSigma ppfW (sigmaToDpmo cdfW 3) = 3 :=
  C3_sigma_dpmo_roundtrip cdfW ppfW ppfW_cdfW cdfW_pos cdfW_lt_one 3
    (by norm_num) (by norm_num)

theorem round_eq_of_bounds (y : ℝ) (n : ℤ) (h1 : (n : ℝ) - 1 / 2 ≤ y)
    (h2 : y < (n : ℝ) + 1 / 2) : round y = n := by
  rw [round_eq]
  refine Int.floor_eq_iff.mpr ⟨?_, ?_⟩ <;> push_cast <;> linarith

theorem round2_eq_of_bounds (x : ℝ) (n : ℤ) (h1 : (n : ℝ) - 1 / 2 ≤ 100 * x)
    (h2 : 100 * x < (n : ℝ) + 1 / 2) : round2 x = (n : ℝ) / 100 := by
  rw [round2, round_eq_of_bounds (100 * x) n h1 h2]

/-- C1: for positive inputs `_calculate_eoq` returns
`eoq = sqrt(2·D·S/H)`, `orders_per_year = D/eoq`,
`days_between_orders = 365/orders_per_year` and
`total_annual_cost = (D/eoq)·S + (eoq/2)·H`, each rounded to two decimals in
the output dict; in particular `EOQ(10000, 50, 5)` yields `eoq = 447.21` and
`orders_per_year = 22.36`. -/
theorem C1_eoq_contract (D S H : ℝ) (hD : 0 < D) (hS : 0 < S) (hH : 0 < H) :
    calculate_eoq D S H = .ok
      { eoq := round2 (Real.sqrt (2 * D * S / H))
        orders_per_year := round2 (D / Real.sqrt (2 * D * S / H))
        days_between_orders := round2 (365 / (D / Real.sqrt (2 * D * S / H)))
        total_annual_cost := round2 ((D / Real.sqrt (2 * D * S / H)) * S
          + (Real.sqrt (2 * D * S / H) / 2) * H)
        average_inventory := round2 (Real.sqrt (2 * D * S / H) / 2) }
    ∧ ∃ r, calculate_eoq 10000 50 5 = .ok r ∧ r.eoq = 447.21 ∧ r.orders_per_year = 22.36 := by
  have hgen : ∀ D S H : ℝ, 0 < D → 0 < S → 0 < H → calculate_eoq D S H = .ok
      { eoq := round2 (Real.sqrt (2 * D * S / H))
        orders_per_year := round2 (D / Real.sqrt (2 * D * S / H))
        days_between_orders := round2 (365 / (D / Real.sqrt (2 * D * S / H)))
        total_annual_cost := round2 ((D / Real.sqrt (2 * D * S / H)) * S
          + (Real.sqrt (2 * D * S / H) / 2) * H)
        average_inventory := round2 (Real.sqrt (2 * D * S / H) / 2) } := by
    intro D S H hD hS hH
    unfold calculate_eoq
    rw [if_neg hH.ne', if_neg (not_lt.mpr (by positivity))]
  refine ⟨hgen D S H hD hS hH, ?_⟩
  have h5 := hgen 10000 50 5 (by norm_num) (by norm_num) (by norm_num)
  rw [show (2 * (10000 : ℝ) * 50 / 5) = 200000 by norm_num] at h5
  refine ⟨_, h5, ?_, ?_⟩
  all_goals
    have hlb : (447.205 : ℝ) ≤ Real.sqrt 200000 :=
      (Real.le_sqrt (by norm_num) (by norm_num)).mpr (by norm_num)
    have hub : Real.sqrt 200000 < 447.215 := (Real.sqrt_lt' (by norm_num)).mpr (by norm_num)
  · exact (round2_eq_of_bounds _ 44721 (by push_cast; linarith) (by push_cast; linarith)).trans
      (by norm_num)
  · have hspos : (0 : ℝ) < Real.sqrt 200000 := lt_of_lt_of_le (by norm_num) hlb
    have hq : (100 : ℝ) * (10000 / Real.sqrt 200000) = 1000000 / Real.sqrt 200000 := by ring
    have h1 : (2235.5 : ℝ) ≤ 100 * (10000 / Real.sqrt 200000) := by
      rw [hq, le_div_iff₀ hspos]
      nlinarith
    have h2 : (100 : ℝ) * (10000 / Real.sqrt 200000) < 2236.5 := by
      rw [hq, div_lt_iff₀ hspos]
      nlinarith
    exact (round2_eq_of_bounds _ 2236 (by push_cast; linarith) (by push_cast; linarith)).trans
      (by norm_num)

theorem C1_eoq_contract_witness :
    ∃ r, calculate_eoq 10000 50 5 = .ok r ∧ r.eoq = 447.21 ∧ r.orders_per_year = 22.36 :=
  (C1_eoq_contract 10000 50 5 (by norm_num) (by norm_num) (by norm_num)).2

/-- C7 counterexample: `route_query` is driven by the language model's reply,
not by any keyword table — two invocations on the identical query text return
different primary agents when the model replies differently, refuting
"identical query text always routes to the same primary agent". -/
theorem C7_counterexample :
    routeQuery "check stock levels" (.ok "math") = "math"
    ∧ routeQuery "check stock levels" (.ok "operations") = "operations"
    ∧ ("math" : String) ≠ "operations" := by
  refine ⟨by decide, by decide, by decide⟩

/-- C7 (amended): routing is deterministic only as a function of the pair
(query, model reply): the reply — stripped and lowercased — is returned
verbatim when it is one of `inventory` / `operations` / `math`; any other
reply, and any API exception, yields `"inventory"`.  No keyword tables are
involved, and the query text itself never influences the result. -/
theorem C7_routing_reply_determined (q q' : String) (reply : Except String String) :
    routeQuery q reply = routeQuery q' reply
    ∧ (∀ e, reply = .error e → routeQuery q reply = "inventory")
    ∧ (∀ t, reply = .ok t →
        ((pyLower (pyStrip t) = "inventory" ∨ pyLower (pyStrip t) = "operations"
            ∨ pyLower (pyStrip t) = "math") →
          routeQuery q reply = pyLower (pyStrip t))
        ∧ (¬(pyLower (pyStrip t) = "inventory" ∨ pyLower (pyStrip t) = "operations"
            ∨ pyLower (pyStrip t) = "math") →
          routeQuery q reply = "inventory")) := by
  refine ⟨?_, ?_, ?_⟩
  · cases reply <;> rfl
  · rintro e rfl
    rfl
  · rintro t rfl
    constructor
    · intro h
      simp only [routeQuery, if_pos h]
    · intro h
      simp only [routeQuery, if_neg h]

theorem C7_routing_reply_determined_witness :
    routeQuery "q" (.ok " Math ") = pyLower (pyStrip " Math ")
    ∧ pyLower (pyStrip " Math ") = "math" :=
  ⟨((C7_routing_reply_determined "q" "still q" (.ok " Math ")).2.2 " Math " rfl).1
      (by decide),
    by decide⟩

theorem parseArgs_ok_names {tcs : List ToolCall} {parsed : List (String × String)}
    (h : parseArgs tcs = .ok parsed) : parsed.map Prod.fst = tcs.map ToolCall.name := by
  induction tcs generalizing parsed with
  | nil =>
    simp only [parseArgs] at h
    cases h
    rfl
  | cons tc rest ih =>
    unfold parseArgs at h
    cases harg : tc.args with
    | error e => rw [harg] at h; cases h
    | ok a =>
      rw [harg] at h
      cases hrest : parseArgs rest with
      | error e => rw [hrest] at h; cases h
      | ok l =>
        rw [hrest] at h
        simp only [Except.map, Except.ok.injEq] at h
        subst h
        simp [ih hrest]

/-- C5: `BaseAgent.process` never lets an internal failure escape: whenever
the run fails (first completion call raises, a tool-argument JSON parse
raises, the second completion call raises, or the final response fails
pydantic validation), the returned `AgentResponse` carries
`metadata["error"] = True` and a content of the form `"Error: <message>"`; and on a
non-failing run the metadata carries no error flag. -/
theorem C5_process_never_raises (agent_name model : String) (st : AgentState)
    (input_data : String) (call1 call2 : Except String Completion)
    (exec : String → String → String) :
    (runFails call1 call2 = true →
      (process agent_name model st input_data call1 call2 exec).2.metadata.lookup "error"
          = some (MetaVal.b true)
      ∧ ∃ msg, (process agent_name model st input_data call1 call2 exec).2.content
          = "Error: " ++ msg)
    ∧ (runFails call1 call2 = false →
      (process agent_name model st input_data call1 call2 exec).2.metadata.lookup "error"
        = none) := by
  cases call1 with
  | error e =>
    refine ⟨fun _ => ⟨?_, e, ?_⟩, fun hf => ?_⟩
    · simp [process, errorResponse, List.lookup]
    · simp [process, errorResponse]
    · simp [runFails] at hf
  | ok r1 =>
    by_cases hT : r1.toolCalls = []
    · refine ⟨fun hf => ?_, fun _ => ?_⟩
      · simp [runFails, hT] at hf
      · simp [process, hT, List.lookup]
    · cases hp : parseArgs r1.toolCalls with
      | error e =>
        refine ⟨fun _ => ⟨?_, e, ?_⟩, fun hf => ?_⟩
        · simp [process, hT, hp, errorResponse, List.lookup]
        · simp [process, hT, hp, errorResponse]
        · simp [runFails, hT, hp] at hf
      | ok parsed =>
        cases call2 with
        | error e2 =>
          refine ⟨fun _ => ⟨?_, e2, ?_⟩, fun hf => ?_⟩
          · simp [process, hT, hp, errorResponse, List.lookup]
          · simp [process, hT, hp, errorResponse]
          · simp [runFails, hT, hp] at hf
        | ok r2 =>
          cases hc : r2.content with
          | none =>
            refine ⟨fun _ => ⟨?_, "1 validation error for AgentResponse content", ?_⟩,
              fun hf => ?_⟩
            · simp [process, hT, hp, hc, errorResponse, List.lookup]
            · simp [process, hT, hp, hc, errorResponse]
            · simp [runFails, hT, hp, hc] at hf
          | some c =>
            refine ⟨fun hf => ?_, fun _ => ?_⟩
            · simp [runFails, hT, hp, hc] at hf
            · simp [process, hT, hp, hc, List.lookup]

theorem C5_process_never_raises_witness :
    (process "inventory" "gpt-4o" ⟨0, 0, none, []⟩ "q" (.error "boom") (.error "unused")
        (fun _ _ => "")).2.metadata.lookup "error" = some (MetaVal.b true)
    ∧ ∃ msg, (process "inventory" "gpt-4o" ⟨0, 0, none, []⟩ "q" (.error "boom")
        (.error "unused") (fun _ _ => "")).2.content = "Error: " ++ msg :=
  (C5_process_never_raises "inventory" "gpt-4o" ⟨0, 0, none, []⟩ "q" (.error "boom")
    (.error "unused") (fun _ _ => "")).1 rfl

/-- C6 counterexample: on the success path `BaseAgent.process` builds
`metadata={"tokens_used": ..., "model": ...}` (base_agent.py:184-187) — it
contains neither a success flag nor an error flag, refuting "metadata always
includes at least a success/error flag". -/
theorem C6_counterexample :
    (process "inventory" "gpt-4o" ⟨0, 0, none, []⟩ "hello" (.ok ⟨some "hi", [], 10⟩)
        (.error "unused") (fun _ _ => "")).2.metadata
      = [("tokens_used", MetaVal.n 10), ("model", MetaVal.s "gpt-4o")]
    ∧ (process "inventory" "gpt-4o" ⟨0, 0, none, []⟩ "hello" (.ok ⟨some "hi", [], 10⟩)
        (.error "unused") (fun _ _ => "")).2.metadata.lookup "error" = none
    ∧ (process "inventory" "gpt-4o" ⟨0, 0, none, []⟩ "hello" (.ok ⟨some "hi", [], 10⟩)
        (.error "unused") (fun _ _ => "")).2.metadata.lookup "success" = none := by
  refine ⟨by decide, by decide, by decide⟩

/-- C6 (amended): `function_calls` preserves the order in which the tool
calls were executed, and the metadata is `{"error": True}` on every failure
path but `{"tokens_used": ..., "model": ...}` — with no success/error flag —
on the success paths. -/
theorem C6_function_call_order_and_metadata (agent_name model : String) (st : AgentState)
    (input_data : String) (call1 call2 : Except String Completion)
    (exec : String → String → String) :
    (runFails call1 call2 = true →
      (process agent_name model st input_data call1 call2 exec).2.metadata
        = [("error", MetaVal.b true)])
    ∧ (∀ r1, call1 = .ok r1 → r1.toolCalls = [] →
      (process agent_name model st input_data call1 call2 exec).2.metadata
          = [("tokens_used", MetaVal.n r1.usage), ("model", MetaVal.s model)]
      ∧ (process agent_name model st input_data call1 call2 exec).2.function_calls = [])
    ∧ (∀ r1 parsed r2 c, call1 = .ok r1 → r1.toolCalls ≠ [] →
        parseArgs r1.toolCalls = .ok parsed → call2 = .ok r2 → r2.content = some c →
      (process agent_name model st input_data call1 call2 exec).2.metadata
          = [("tokens_used", MetaVal.n r1.usage), ("model", MetaVal.s model)]
      ∧ (process agent_name model st input_data call1 call2 exec).2.function_calls.map
          FnCall.function = r1.toolCalls.map ToolCall.name) := by
  refine ⟨?_, ?_, ?_⟩
  · intro hf
    cases call1 with
    | error e => simp [process, errorResponse]
    | ok r1 =>
      by_cases hT : r1.toolCalls = []
      · simp [runFails, hT] at hf
      · cases hp : parseArgs r1.toolCalls with
        | error e => simp [process, hT, hp, errorResponse]
        | ok parsed =>
          cases call2 with
          | error e2 => simp [process, hT, hp, errorResponse]
          | ok r2 =>
            cases hc : r2.content with
            | none => simp [process, hT, hp, hc, errorResponse]
            | some c => simp [runFails, hT, hp, hc] at hf
  · rintro r1 rfl hT
    exact ⟨by simp [process, hT], by simp [process, hT]⟩
  · rintro r1 parsed r2 c rfl hT hp rfl hc
    refine ⟨by simp [process, hT, hp, hc], ?_⟩
    have horder : (parsed.map (fun p => FnCall.mk p.1 p.2 (exec p.1 p.2))).map FnCall.function
        = parsed.map Prod.fst := by
      simp
    simp only [process, hp, hc, if_neg hT]
    rw [horder]
    exact parseArgs_ok_names hp

theorem C6_function_call_order_and_metadata_witness :
    (process "inventory" "gpt-4o" ⟨0, 0, none, []⟩ "q"
        (.ok ⟨some "x", [⟨"calculate_eoq", .ok "{}"⟩], 5⟩)
        (.ok ⟨some "done", [], 7⟩) (fun _ _ => "result")).2.metadata
      = [("tokens_used", MetaVal.n 5), ("model", MetaVal.s "gpt-4o")]
    ∧ (process "inventory" "gpt-4o" ⟨0, 0, none, []⟩ "q"
        (.ok ⟨some "x", [⟨"calculate_eoq", .ok "{}"⟩], 5⟩)
        (.ok ⟨some "done", [], 7⟩) (fun _ _ => "result")).2.function_calls.map
        FnCall.function = [⟨"calculate_eoq", .ok "{}"⟩].map ToolCall.name :=
  (C6_function_call_order_and_metadata "inventory" "gpt-4o" ⟨0, 0, none, []⟩ "q"
      (.ok ⟨some "x", [⟨"calculate_eoq", .ok "{}"⟩], 5⟩)
      (.ok ⟨some "done", [], 7⟩) (fun _ _ => "result")).2.2
    ⟨some "x", [⟨"calculate_eoq", .ok "{}"⟩], 5⟩ [("calculate_eoq", "{}")]
    ⟨some "done", [], 7⟩ "done" rfl (by decide) (by decide) rfl rfl

/-- C9 counterexample: when the first completion returns tool calls and the
final completion's content is `None`, the success-path state updates
(base_agent.py:164-178) all run before the `AgentResponse` construction
raises a pydantic validation error (content must be a `str`), so `process`
returns an error response while `queries_processed` has already been
incremented — the state is NOT left unchanged on this failure. -/
theorem C9_counterexample :
    (process "inventory" "gpt-4o" ⟨0, 0, none, []⟩ "q"
        (.ok ⟨some "x", [⟨"calculate_eoq", .ok "{}"⟩], 5⟩)
        (.ok ⟨none, [], 7⟩) (fun _ _ => "r")).2.metadata = [("error", MetaVal.b true)]
    ∧ (process "inventory" "gpt-4o" ⟨0, 0, none, []⟩ "q"
        (.ok ⟨some "x", [⟨"calculate_eoq", .ok "{}"⟩], 5⟩)
        (.ok ⟨none, [], 7⟩) (fun _ _ => "r")).1.queries_processed = 1
    ∧ (AgentState.mk 0 0 none []).queries_processed = 0 := by
  refine ⟨by decide, by decide, by decide⟩

/-- C9 (amended): an exception raised before the success-path state updates —
the first completion call, a tool-argument JSON parse, or the second
completion call — returns an error `AgentResponse` with the agent state
completely unchanged; but the one failure point after the updates (final
content `None` failing response validation) returns an error response with
the state already updated. -/
theorem C9_state_unchanged_on_early_failure (agent_name model : String) (st : AgentState)
    (input_data : String) (call1 call2 : Except String Completion)
    (exec : String → String → String) :
    (∀ e, call1 = .error e →
      (process agent_name model st input_data call1 call2 exec).1 = st)
    ∧ (∀ r1 e, call1 = .ok r1 → r1.toolCalls ≠ [] → parseArgs r1.toolCalls = .error e →
      (process agent_name model st input_data call1 call2 exec).1 = st)
    ∧ (∀ r1 parsed e2, call1 = .ok r1 → r1.toolCalls ≠ [] →
        parseArgs r1.toolCalls = .ok parsed → call2 = .error e2 →
      (process agent_name model st input_data call1 call2 exec).1 = st)
    ∧ (∀ r1 parsed r2, call1 = .ok r1 → r1.toolCalls ≠ [] →
        parseArgs r1.toolCalls = .ok parsed → call2 = .ok r2 → r2.content = none →
      (process agent_name model st input_data call1 call2 exec).1.queries_processed
          = st.queries_processed + 1
      ∧ (process agent_name model st input_data call1 call2 exec).2.metadata
          = [("error", MetaVal.b true)]) := by
  refine ⟨?_, ?_, ?_, ?_⟩
  · rintro e rfl
    rfl
  · rintro r1 e rfl hT hp
    simp [process, hp, if_neg hT]
  · rintro r1 parsed e2 rfl hT hp rfl
    simp [process, hp, if_neg hT]
  · rintro r1 parsed r2 rfl hT hp rfl hc
    refine ⟨?_, ?_⟩ <;> simp [process, hp, hc, if_neg hT, errorResponse]

theorem C9_state_unchanged_on_early_failure_witness :
    (process "inventory" "gpt-4o" ⟨3, 42, some "t", [("u", some "a")]⟩ "q" (.error "boom")
        (.error "unused") (fun _ _ => "")).1 = ⟨3, 42, some "t", [("u", some "a")]⟩ :=
  (C9_state_unchanged_on_early_failure "inventory" "gpt-4o" ⟨3, 42, some "t", [("u", some "a")]⟩
    "q" (.error "boom") (.error "unused") (fun _ _ => "")).1 "boom" rfl

theorem round2q_mono {a b : ℚ} (h : a ≤ b) : round2q a ≤ round2q b := by
  unfold round2q
  have hr : round (100 * a) ≤ round (100 * b) := by
    rw [round_eq, round_eq]
    exact Int.floor_mono (by linarith)
  have hc : ((round (100 * a) : ℤ) : ℚ) ≤ ((round (100 * b) : ℤ) : ℚ) := by
    exact_mod_cast hr
  linarith

theorem abcGo_map_cum (total : ℚ) : ∀ (c : ℚ) (l : List (String × ℚ)),
    (abcGo total c l).map AbcEntry.cumulative_percentage = (cumList total c l).map round2q
  | c, [] => rfl
  | c, (sku, v) :: rest => by
    simp only [abcGo, cumList, List.map_cons]
    exact congrArg _ (abcGo_map_cum total _ rest)

theorem cumList_chain' (total : ℚ) (htot : 0 < total) :
    ∀ (l : List (String × ℚ)) (c : ℚ), (∀ p ∈ l, 0 ≤ p.2) →
      List.Chain' (· ≤ ·) (cumList total c l)
  | [], _, _ => List.chain'_nil
  | (sku, v) :: rest, c, h => by
    rw [cumList, List.chain'_cons']
    refine ⟨?_, cumList_chain' total htot rest _ (fun p hp => h p (List.mem_cons_of_mem _ hp))⟩
    intro y hy
    cases rest with
    | nil => simp [cumList] at hy
    | cons q qrest =>
      rw [cumList] at hy
      simp only [List.head?_cons, Option.mem_def, Option.some.injEq] at hy
      subst hy
      have hq : 0 ≤ q.2 := h q (List.mem_cons_of_mem _ (List.mem_cons_self _ _))
      have : 0 ≤ q.2 / total * 100 := by positivity
      linarith

theorem cumList_getLast? (total : ℚ) : ∀ (l : List (String × ℚ)) (c : ℚ), l ≠ [] →
    (cumList total c l).getLast? = some (c + (l.map (·.2)).sum / total * 100)
  | [], _, h => absurd rfl h
  | [(sku, v)], c, _ => by
    simp [cumList, add_zero]
  | (sku, v) :: q :: qrest, c, _ => by
    rw [cumList, cumList]
    rw [show ((cumList total (c + v / total * 100 + q.2 / total * 100) qrest))
      = cumList total (c + v / total * 100 + q.2 / total * 100) qrest from rfl]
    have := cumList_getLast? total (q :: qrest) (c + v / total * 100) (by simp)
    rw [cumList] at this
    rw [List.getLast?_cons_cons, this]
    congr 1
    simp only [List.map_cons, List.sum_cons]
    ring

theorem abcGo_category (total : ℚ) : ∀ (c : ℚ) (l : List (String × ℚ)) (e : AbcEntry),
    e ∈ abcGo total c l → e.category = "A" ∨ e.category = "B" ∨ e.category = "C"
  | c, [], e => by intro h; simp [abcGo] at h
  | c, (sku, v) :: rest, e => by
    intro h
    rw [abcGo, List.mem_cons] at h
    rcases h with h | h
    · subst h
      simp only
      split
      · exact Or.inl rfl
      · split
        · exact Or.inr (Or.inl rfl)
        · exact Or.inr (Or.inr rfl)
    · exact abcGo_category total _ rest e h

/-- C2 (amended): for every non-empty item list with NON-NEGATIVE values and
positive total value, `_abc_classification` sorts descending by value,
assigns each item exactly one of the categories A/B/C, the output
`cumulative_percentage` column is monotonically non-decreasing, and its last
entry is exactly 100. -/
theorem C2_abc_invariants (items : List (String × ℚ)) (hne : items ≠ [])
    (hnn : ∀ p ∈ items, 0 ≤ p.2) (hpos : 0 < (items.map (·.2)).sum) :
    ∃ entries, abcClassification items = .ok entries
      ∧ List.Sorted valGe (sortDescq items)
      ∧ List.Perm (sortDescq items) items
      ∧ (∀ e ∈ entries,
          (e.category = "A" ∧ e.category ≠ "B" ∧ e.category ≠ "C")
          ∨ (e.category ≠ "A" ∧ e.category = "B" ∧ e.category ≠ "C")
          ∨ (e.category ≠ "A" ∧ e.category ≠ "B" ∧ e.category = "C"))
      ∧ List.Chain' (· ≤ ·) (entries.map AbcEntry.cumulative_percentage)
      ∧ (entries.map AbcEntry.cumulative_percentage).getLast? = some 100 := by
  have hperm : List.Perm (sortDescq items) items := List.perm_insertionSort valGe items
  have hsum : ((sortDescq items).map (·.2)).sum = (items.map (·.2)).sum :=
    (hperm.map (·.2)).sum_eq
  have hsne : sortDescq items ≠ [] := by
    intro h
    rw [h] at hperm
    exact hne (hperm.symm.eq_nil)
  have htot : 0 < ((sortDescq items).map (·.2)).sum := hsum ▸ hpos
  have hnn' : ∀ p ∈ sortDescq items, 0 ≤ p.2 := fun p hp => hnn p (hperm.subset hp)
  refine ⟨abcGo ((sortDescq items).map (·.2)).sum 0 (sortDescq items), ?_, ?_, hperm,
    ?_, ?_, ?_⟩
  · unfold abcClassification
    rw [if_neg hne]
  · exact List.sorted_insertionSort valGe items
  · intro e he
    rcases abcGo_category _ _ _ e he with h | h | h
    · exact Or.inl ⟨h, by rw [h]; exact ⟨by decide, by decide⟩⟩
    · exact Or.inr (Or.inl ⟨by rw [h]; decide, h, by rw [h]; decide⟩)
    · exact Or.inr (Or.inr ⟨by rw [h]; decide, by rw [h]; decide, h⟩)
  · rw [abcGo_map_cum, List.chain'_map]
    exact (cumList_chain' _ htot _ 0 hnn').imp (fun a b => round2q_mono)
  · rw [abcGo_map_cum, List.getLast?_map, cumList_getLast? _ _ 0 hsne]
    rw [zero_add, div_self htot.ne', one_mul]
    have h100 : round2q 100 = 100 := by
      unfold round2q
      rw [show (100 : ℚ) * 100 = ((10000 : ℤ) : ℚ) by norm_num, round_intCast]
      norm_num
    simp [h100]

theorem C2_abc_invariants_witness :
    ∃ entries, abcClassification [("a", 1)] = .ok entries
      ∧ List.Sorted valGe (sortDescq [("a", 1)])
      ∧ List.Perm (sortDescq [("a", 1)]) [("a", 1)]
      ∧ (∀ e ∈ entries,
          (e.category = "A" ∧ e.category ≠ "B" ∧ e.category ≠ "C")
          ∨ (e.category ≠ "A" ∧ e.category = "B" ∧ e.category ≠ "C")
          ∨ (e.category ≠ "A" ∧ e.category ≠ "B" ∧ e.category = "C"))
      ∧ List.Chain' (· ≤ ·) (entries.map AbcEntry.cumulative_percentage)
      ∧ (entries.map AbcEntry.cumulative_percentage).getLast? = some 100 :=
  C2_abc_invariants [("a", 1)] (by simp) (by norm_num) (by norm_num)

/-- C2 counterexample: the claim quantifies only over "positive total value",
but with a negative-valued item (total still positive) the cumulative
percentage column of `_abc_classification` is NOT monotonically
non-decreasing: for `[a:5, b:-1, c:1]` the output column is `[100, 120, 100]`. -/
theorem C2_counterexample :
    ([("a", 5), ("b", -1), ("c", 1)] : List (String × ℚ)) ≠ []
    ∧ 0 < ((([("a", 5), ("b", -1), ("c", 1)] : List (String × ℚ)).map (·.2)).sum)
    ∧ (abcClassification [("a", 5), ("b", -1), ("c", 1)]).map
        (fun l => l.map AbcEntry.cumulative_percentage) = .ok [100, 120, 100]
    ∧ ¬ List.Chain' (· ≤ ·) ([100, 120, 100] : List ℚ) := by
  refine ⟨by simp, by norm_num, ?_, ?_⟩
  · have hc : ([("a", 5), ("b", -1), ("c", 1)] : List (String × ℚ)) ≠ [] := by simp
    norm_num [abcClassification, sortDescq, List.insertionSort, List.orderedInsert, valGe,
      abcGo, round2q, hc]
    simp [Except.map]
  · intro h
    rw [List.chain'_cons, List.chain'_cons] at h
    have := h.2.1
    norm_num at this

/-- C10: a single positive-valued item has cumulative percentage 100, which
exceeds the 95% threshold, so `_abc_classification` puts it in category "C"
and `_pareto_analysis` marks it `is_vital_few = False` (empty `vital_few`)
even though it contributes 100% of the value; in general a top-ranked item
whose own contribution exceeds 80% is excluded from category A and from the
vital few. -/
theorem C10_top_item_exclusion :
    (∀ (s : String) (v : ℚ), 0 < v →
      (abcClassification [(s, v)]).map (List.map AbcEntry.category) = .ok ["C"]
      ∧ (paretoAnalysis [(s, v)]).map ParetoResult.vital_few = .ok []
      ∧ (paretoAnalysis [(s, v)]).map (fun r => r.analysis.map ParetoEntry.is_vital_few)
          = .ok [false])
    ∧ (∀ (sku : String) (v : ℚ) (rest : List (String × ℚ)) (total : ℚ),
        80 < v / total * 100 →
        ((abcGo total 0 ((sku, v) :: rest)).map AbcEntry.category).head?
          = some (if v / total * 100 ≤ 95 then "B" else "C")
        ∧ ((paretoGo total 0 ((sku, v) :: rest)).map ParetoEntry.is_vital_few).head?
          = some false) := by
  constructor
  · intro s v hv
    have hdiv : v / v * 100 = (100 : ℚ) := by
      rw [div_self hv.ne', one_mul]
    refine ⟨?_, ?_, ?_⟩ <;>
      norm_num [abcClassification, paretoAnalysis, sortDescq, List.insertionSort,
        List.orderedInsert, abcGo, paretoGo, hdiv, Except.map, List.filter]
  · intro sku v rest total h80
    constructor
    · simp only [abcGo, List.map_cons, List.head?_cons, Option.some.injEq, zero_add]
      rw [if_neg (not_le.mpr h80)]
    · simp only [paretoGo, List.map_cons, List.head?_cons, Option.some.injEq, zero_add]
      exact decide_eq_false (not_le.mpr h80)

theorem C10_top_item_exclusion_witness :
    ((abcClassification [("x", 1)]).map (List.map AbcEntry.category) = .ok ["C"]
      ∧ (paretoAnalysis [("x", 1)]).map ParetoResult.vital_few = .ok [])
    ∧ ((abcGo 10 0 [("a", 9), ("b", 1)]).map AbcEntry.category).head?
        = some (if (9 : ℚ) / 10 * 100 ≤ 95 then "B" else "C") :=
  ⟨⟨(C10_top_item_exclusion.1 "x" 1 (by norm_num)).1,
    (C10_top_item_exclusion.1 "x" 1 (by norm_num)).2.1⟩,
    (C10_top_item_exclusion.2 "a" 9 [("b", 1)] 10 (by norm_num)).1⟩
